import Mathlib

/-!
# File grabber and task factory: a verification development

A shallow embedding of `src/file_grabber/main.cpp` and `src/Agent/Task.cpp`,
and theorems about the encoder, the enumerator, the copier, the task runner,
the archiver and the task factory.

Conventions of the embedding:

* Bytes (`unsigned char`) are natural numbers below 256; a store into an
  `unsigned char` is written `% 256`.
* `std::string` is `String`, a `std::vector` is a `List`.
* A C++ function that can throw returns `Except`; a `try`/`catch` block is a
  `match` on that result.
* The filesystem is an explicit value of type `FS` that is passed through the
  functions that change it. It is a tree without symbolic links and without
  permissions; creating a directory and copying a file are atomic. A file
  name is at most `NAME_MAX` bytes long; the length of a whole path and the
  space on the device are not limited.
* The libraries are models or parameters: `boost::filesystem` acts on `FS`,
  `std::regex` is a parameter of `list_files`, minizip is an environment
  that answers every call.
* Text written to `std::cout` / `std::cerr` is not part of the model.
* `int` counters are natural numbers (no run reaches `2^31` files).
-/

set_option autoImplicit false

namespace FileGrabber

/-! ## Binary encoder: `base64_encode` (main.cpp, lines 252-285) -/

/-- The table `base64_chars` of `base64_encode`. -/
def base64_chars : List Char :=
  "ABCDEFGHIJKLMNOPQRSTUVWXYZabcdefghijklmnopqrstuvwxyz0123456789+/".toList

/-- The C expression `base64_chars[k]`; the C string ends in a NUL character. -/
def base64_char_at (k : Nat) : Char :=
  base64_chars.getD k (Char.ofNat 0)

/-- The local variables of `base64_encode` that live across loop iterations:
the counter `i`, the array `char_array_3` and the output `result`. -/
structure EncState where
  i : Nat
  c0 : Nat
  c1 : Nat
  c2 : Nat
  result : List Char
deriving Repr, DecidableEq

/-- The assignment `char_array_3[k] = v`. -/
def EncState.store (s : EncState) (k v : Nat) : EncState :=
  match k with
  | 0 => { s with c0 := v }
  | 1 => { s with c1 := v }
  | _ => { s with c2 := v }

/-- The four assignments to `char_array_4`, each stored into an
`unsigned char` (lines 263-266 and 275-278). -/
def char_array_4 (s : EncState) : List Nat :=
  [ ((s.c0 &&& 0xfc) >>> 2) % 256,
    (((s.c0 &&& 0x03) <<< 4) + ((s.c1 &&& 0xf0) >>> 4)) % 256,
    (((s.c1 &&& 0x0f) <<< 2) + ((s.c2 &&& 0xc0) >>> 6)) % 256,
    (s.c2 &&& 0x3f) % 256 ]

/-- One iteration of the loop over `data` (lines 261-270). -/
def encStep (s : EncState) (byte : Nat) : EncState :=
  let s1 := { s.store s.i byte with i := s.i + 1 }
  if s1.i = 3 then
    { s1 with result := s1.result ++ (char_array_4 s1).map base64_char_at, i := 0 }
  else s1

/-- The block after the loop (lines 272-283): zero the unused bytes, emit
`i + 1` symbols and pad with `=` while `i++ < 3`. -/
def encFinish (s : EncState) : List Char :=
  if s.i ≠ 0 then
    let s1 := (List.range' s.i (3 - s.i)).foldl (fun t j => t.store j 0) s
    s1.result ++ ((char_array_4 s1).take (s.i + 1)).map base64_char_at
      ++ List.replicate (3 - s.i) '='
  else s.result

/-- The state on entry to the loop. `char_array_3` is uninitialised in the
source; every cell is written before it is read, so zeros stand for it. -/
def encInit : EncState := { i := 0, c0 := 0, c1 := 0, c2 := 0, result := [] }

/-- The function `base64_encode`. -/
def base64_encode (data : List Nat) : String :=
  String.mk (encFinish (data.foldl encStep encInit))

/-! ### A standard base64 decoder (RFC 4648, section 4)

The repository has no decoder; this one is written from the standard and is
what the round-trip law is stated against. -/

/-- The value of a symbol of the base64 alphabet. -/
def base64_value (c : Char) : Option Nat :=
  if 'A' ≤ c ∧ c ≤ 'Z' then some (c.toNat - 65)
  else if 'a' ≤ c ∧ c ≤ 'z' then some (c.toNat - 97 + 26)
  else if '0' ≤ c ∧ c ≤ '9' then some (c.toNat - 48 + 52)
  else if c = '+' then some 62
  else if c = '/' then some 63
  else none

/-- Decode a list of symbols, four at a time; `=` may only end the text. -/
def base64_decode_chars : List Char → Option (List Nat)
  | [] => some []
  | a :: b :: c :: d :: rest =>
    if c = '=' then
      if d = '=' ∧ rest = [] then
        (base64_value a).bind fun x => (base64_value b).bind fun y =>
          some [(x * 4 + y / 16) % 256]
      else none
    else if d = '=' then
      if rest = [] then
        (base64_value a).bind fun x => (base64_value b).bind fun y =>
        (base64_value c).bind fun z =>
          some [(x * 4 + y / 16) % 256, (y % 16 * 16 + z / 4) % 256]
      else none
    else
      (base64_value a).bind fun x => (base64_value b).bind fun y =>
      (base64_value c).bind fun z => (base64_value d).bind fun w =>
      (base64_decode_chars rest).bind fun tl =>
        some ((x * 4 + y / 16) % 256 :: (y % 16 * 16 + z / 4) % 256
              :: (z % 4 * 64 + w) % 256 :: tl)
  | _ => none

/-- The standard decoder on text. -/
def base64_decode (text : String) : Option (List Nat) :=
  base64_decode_chars text.data

/-! ### Auxiliary definitions for the encoder proofs -/

/-- The four 6-bit values computed from three bytes. -/
def quad (a b c : Nat) : List Nat :=
  char_array_4 { i := 0, c0 := a, c1 := b, c2 := c, result := [] }

/-- The encoder written group by group. -/
def encGroups : List Nat → List Char
  | a :: b :: c :: rest => (quad a b c).map base64_char_at ++ encGroups rest
  | [a, b] => ((quad a b 0).take 3).map base64_char_at ++ ['=']
  | [a] => ((quad a 0 0).take 2).map base64_char_at ++ ['=', '=']
  | [] => []

/-! ## The filesystem seen by the program

The calls into `boost::filesystem` act on a tree of directories and files.
Paths are resolved as POSIX does on a tree without symbolic links: empty
components and `.` stay in place, `..` moves to the parent, every component
that is walked through must be a directory. A name of more than `NAME_MAX`
bytes is refused with the error `ENAMETOOLONG`. -/

/-- A node of the tree: a regular file with its bytes, a directory with its
entries in iteration order, or something that is neither (a device, a socket). -/
inductive Node
  | file (bytes : List Nat)
  | dir (entries : List (String × Node))
  | other
deriving Repr

/-- A filesystem: the directory `/` and the current directory, the latter as
the list of names leading to it from `/`. -/
structure FS where
  root : Node
  cwd : List String
deriving Repr

/-- The longest file name in bytes (`NAME_MAX` of Linux). -/
def NAME_MAX : Nat := 255

/-- Whether a file name is longer than `NAME_MAX` bytes. -/
def nameTooLong (c : String) : Bool :=
  decide (NAME_MAX < c.utf8ByteSize)

/-- The entry called `name` of a directory listing. -/
def lookupEntry (name : String) : List (String × Node) → Option Node
  | [] => none
  | (n, x) :: rest => if n = name then some x else lookupEntry name rest

/-- Apply `f` to the entry called `name`. -/
def modifyEntry (name : String) (f : Node → Node) :
    List (String × Node) → List (String × Node)
  | [] => []
  | (n, x) :: rest =>
    if n = name then (n, f x) :: rest else (n, x) :: modifyEntry name f rest

/-- The node reached from `n` by following a list of names. -/
def Node.get : Node → List String → Option Node
  | n, [] => some n
  | Node.dir es, c :: cs =>
    match lookupEntry c es with
    | some m => m.get cs
    | none => none
  | _, _ :: _ => none

/-- Add the entry `(name, x)` to the directory reached by `path`. -/
def Node.insert : List String → String → Node → Node → Node
  | [], name, x, Node.dir es => Node.dir (es ++ [(name, x)])
  | c :: cs, name, x, Node.dir es => Node.dir (modifyEntry c (Node.insert cs name x) es)
  | _, _, _, n => n

/-- Cut a path at every `/`. -/
def splitSlash : List Char → List (List Char)
  | [] => [[]]
  | c :: cs =>
    if c = '/' then [] :: splitSlash cs
    else match splitSlash cs with
      | w :: ws => (c :: w) :: ws
      | [] => [[c]]

/-- The components of a path, empty ones included. -/
def components (p : String) : List String :=
  (splitSlash p.data).map String.mk

/-- Walk the components `comps` starting from the directory `cur`; the result
is the list of names, from `/`, of the node that is reached. -/
def walk (root : Node) : List String → List String → Option (List String)
  | cur, [] => some cur
  | cur, c :: cs =>
    match root.get cur with
    | some (Node.dir _) =>
      if c = "" ∨ c = "." then walk root cur cs
      else if c = ".." then walk root cur.dropLast cs
      else if nameTooLong c then none
      else match root.get (cur ++ [c]) with
        | some _ => walk root (cur ++ [c]) cs
        | none => none
    | _ => none

/-- Whether the walk stops at a component that is longer than `NAME_MAX`
(the error `ENAMETOOLONG`) rather than at a missing one. -/
def walkTooLong (root : Node) : List String → List String → Bool
  | _, [] => false
  | cur, c :: cs =>
    match root.get cur with
    | some (Node.dir _) =>
      if c = "" ∨ c = "." then walkTooLong root cur cs
      else if c = ".." then walkTooLong root cur.dropLast cs
      else if nameTooLong c then true
      else match root.get (cur ++ [c]) with
        | some _ => walkTooLong root (cur ++ [c]) cs
        | none => false
    | _ => false

/-- Where the resolution of `p` starts: `/` for an absolute path, the current
directory otherwise. -/
def startDir (fs : FS) (p : String) : List String :=
  if p.data.head? = some '/' then [] else fs.cwd

/-- The place a path names, if it names one. -/
def resolve (fs : FS) (p : String) : Option (List String) :=
  if p = "" then none else walk fs.root (startDir fs p) (components p)

/-- The node a path names (`stat`). -/
def stat (fs : FS) (p : String) : Option Node :=
  (resolve fs p).bind fs.root.get

/-- Whether `boost::filesystem::status` throws for the path: it does for the
error `ENAMETOOLONG`, and reports a missing file otherwise. -/
def status_throws (fs : FS) (p : String) : Bool :=
  walkTooLong fs.root (startDir fs p) (components p)

/-- `boost::filesystem::exists`: it throws a `filesystem_error` when `status`
does. -/
def fs_exists (fs : FS) (p : String) : Except String Bool :=
  if status_throws fs p then Except.error "File name too long"
  else Except.ok (stat fs p).isSome

/-- `boost::filesystem::is_directory` as a test: `true` when the call returns
`true`. Where the call throws (`status_throws`) the value is `false`; its
callers leave at once in both cases. -/
def is_directory (fs : FS) (p : String) : Bool :=
  match stat fs p with
  | some (Node.dir _) => true
  | _ => false

/-- Create the node `x` under the new name `name` in the directory that the
components `pre` lead to. Fails when that directory is missing, when the name
is not a proper file name or is longer than `NAME_MAX`, or when the name is
taken. -/
def createAt (fs : FS) (p : String) (pre : List String) (name : String) (x : Node) :
    Option FS :=
  if name = "" ∨ name = "." ∨ name = ".." then none
  else if nameTooLong name then none
  else match walk fs.root (startDir fs p) pre with
    | none => none
    | some parent =>
      match fs.root.get parent with
      | some (Node.dir es) =>
        match lookupEntry name es with
        | some _ => none
        | none => some { fs with root := Node.insert parent name x fs.root }
      | _ => none

/-- Drop the empty components that trailing slashes leave at the end. -/
def dropTrailingEmpty (comps : List String) : List String :=
  (comps.reverse.dropWhile (fun c => c = "")).reverse

/-- The system call `mkdir`: trailing slashes are allowed. -/
def mkdir (fs : FS) (p : String) : Option FS :=
  if p = "" then none
  else
    let comps := dropTrailingEmpty (components p)
    match comps.getLast? with
    | none => none
    | some name => createAt fs p comps.dropLast name (Node.dir [])

/-- `boost::filesystem::create_directory`: `mkdir`; when that fails and the
path is a directory already nothing happens, otherwise the call throws. -/
def create_directory (fs : FS) (p : String) : Except String FS :=
  match mkdir fs p with
  | some fs1 => Except.ok fs1
  | none => if is_directory fs p then Except.ok fs else Except.error "create_directory"

/-- `boost::filesystem::copy_file` without overwriting: the source must be a
regular file and the target a new name in an existing directory. -/
def copy_file (fs : FS) (source target : String) : Except String FS :=
  match stat fs source with
  | some (Node.file bytes) =>
    if target = "" then Except.error "copy_file"
    else
      let comps := components target
      match comps.getLast? with
      | none => Except.error "copy_file"
      | some name =>
        match createAt fs target comps.dropLast name (Node.file bytes) with
        | some fs1 => Except.ok fs1
        | none => Except.error "copy_file"
  | _ => Except.error "copy_file"

/-- The path `root / name` of `boost::filesystem`: a separator is put between
the two unless `root` is empty or ends in one; an empty `name` adds nothing. -/
def path_append (root name : String) : String :=
  if name = "" then root
  else if root = "" ∨ root.data.getLast? = some '/' then root ++ name
  else root ++ "/" ++ name

/-! ## File enumerator: `list_files` (main.cpp, lines 13-64)

`std::regex` is a parameter `rx`: `rx filter` is `none` when constructing the
regular expression throws, and otherwise the predicate `regex_match (·, filter)`. -/

mutual
/-- The body of the loop of `list_files` (lines 36-60) for the entry `node`
found at `filepath`. The recursive call on a subdirectory (line 43) is made
on the entries of that subdirectory: its path exists, is a directory and the
filter has been compiled before, so of the checks at the head of
`list_files` only the comparison with `working_dir` (line 30) can take effect. -/
def list_files_entry (working_dir : String) (recursive : Bool) (filter : String)
    (regex_match : String → Bool) (regularFilesOnly : Bool) (filepath : String) :
    Node → List String
  | Node.dir sub =>
    (if recursive && filepath != ".." then
      (if filepath = working_dir then []
       else list_files_loop working_dir recursive filter regex_match regularFilesOnly
              filepath sub)
     else [])
      ++ (if regularFilesOnly then [] else [filepath])
  | Node.file _ =>
    if filter != "" && !regex_match filepath then [] else [filepath]
  | Node.other =>
    if regularFilesOnly then [] else [filepath]
/-- The loop of `list_files` over the entries of the directory `root`
(lines 35-61). -/
def list_files_loop (working_dir : String) (recursive : Bool) (filter : String)
    (regex_match : String → Bool) (regularFilesOnly : Bool) (root : String) :
    List (String × Node) → List String
  | [] => []
  | (name, node) :: rest =>
    list_files_entry working_dir recursive filter regex_match regularFilesOnly
        (path_append root name) node
      ++ list_files_loop working_dir recursive filter regex_match regularFilesOnly root rest
end

/-- The function `list_files`. -/
def list_files (rx : String → Option (String → Bool)) (fs : FS) (working_dir root : String)
    (recursive : Bool) (filter : String) (regularFilesOnly : Bool) :
    Except String (List String) :=
  if status_throws fs root then Except.error "File name too long"
  else match stat fs root with
  | none => Except.error (root ++ " does not exist")
  | some (Node.dir es) =>
    match rx filter with
    | none => Except.error "regex_error"
    | some regex_match =>
      if root = working_dir then Except.ok []
      else Except.ok
        (list_files_loop working_dir recursive filter regex_match regularFilesOnly root es)
  | some _ => Except.error (root ++ " is not a directory.")

/-! ## Staging copier (main.cpp, lines 100-140) -/

/-- The function `replace_slashes_with_underscores`. -/
def replace_slashes_with_underscores (path : String) : String :=
  String.mk (path.data.map fun ch => if ch = '/' ∨ ch = '\\' then '_' else ch)

/-- The function `copy_file_to_folder`; a `filesystem_error`, of `exists` or
of `copy_file`, is caught inside and leaves the filesystem as it is. -/
def copy_file_to_folder (fs : FS) (source_path destination_folder : String) : FS :=
  if !is_directory fs destination_folder then fs
  else
    let modified_filename := replace_slashes_with_underscores source_path
    let destination_file := path_append destination_folder modified_filename
    match fs_exists fs destination_file with
    | Except.error _ => fs
    | Except.ok found =>
      if !found then
        match copy_file fs source_path destination_file with
        | Except.ok fs1 => fs1
        | Except.error _ => fs
      else fs

/-! ## Task runner (main.cpp, lines 208-249) -/

/-- One item of the JSON object given to `parse_tasks`: the key and the
fields `start_path` and `files` of its value. -/
structure TaskDescriptor where
  task_id : String
  start_path : String
  files : List String
deriving Repr

/-- The function `run_grab_task`: the filesystem it leaves and `found_counter`. -/
def run_grab_task (rx : String → Option (String → Bool)) (fs : FS)
    (working_dir directory filter task_id : String) : FS × Nat :=
  let task_dir := working_dir ++ "/" ++ task_id
  let fs1 := match create_directory fs task_dir with
    | Except.ok fs1 => fs1
    | Except.error _ => fs
  let files := match list_files rx fs1 working_dir directory true filter true with
    | Except.ok files => files
    | Except.error _ => []
  files.foldl (fun st file => (copy_file_to_folder st.1 file task_dir, st.2 + 1)) (fs1, 0)

/-- The function `parse_tasks` on the items of the JSON object in iteration
order: the filesystem it leaves and the count `c`. -/
def parse_tasks (rx : String → Option (String → Bool)) (fs : FS) (working_dir : String)
    (j : List TaskDescriptor) : FS × Nat :=
  j.foldl (fun st d =>
    d.files.foldl (fun st filter =>
      let r := run_grab_task rx st.1 working_dir d.start_path filter d.task_id
      (r.1, st.2 + r.2)) st) (fs, 0)

/-! ## A fragment of `std::regex`

The regular expressions of the standard library (ECMAScript grammar) on the
fragment made of literal characters, escaped punctuation, `.`, a `*` after a character
and the end assertion `$`. It serves where a statement needs the matcher on
a concrete pattern; the general statements take the matcher as a parameter.
For a pattern outside the fragment `ecma_regex` gives `none`. That is what
the library does for a malformed pattern, such as an unclosed `[`, on which
the constructor throws `std::regex_error`; well-formed patterns with other
operators, or with a `*` right after a `*`, are not modelled. A text is
matched character by character, which on ASCII text is the byte by byte
matching of the library. -/

/-- What one pattern position accepts. -/
inductive CharClass
  | lit (c : Char)
  | any
deriving Repr, DecidableEq

/-- A term of a pattern of the fragment. -/
inductive Tok
  | one (a : CharClass)
  | many (a : CharClass)
  | eol
deriving Repr, DecidableEq

/-- A pattern cut into characters with their role. -/
inductive Atom
  | cls (a : CharClass)
  | dollar
  | star
  | bad
deriving Repr, DecidableEq

/-- The punctuation that a backslash turns into a literal. -/
def syntaxChars : List Char := "^$\\.*+?()[]|/".toList ++ [Char.ofNat 123, Char.ofNat 125]

/-- The role of a character that no backslash precedes; `/` stands for itself. -/
def classify (c : Char) : Atom :=
  if c = '.' then Atom.cls CharClass.any
  else if c = '$' then Atom.dollar
  else if c = '*' then Atom.star
  else if c = '/' then Atom.cls (CharClass.lit c)
  else if c ∈ syntaxChars then Atom.bad
  else Atom.cls (CharClass.lit c)

/-- Read a pattern character by character. -/
def atoms : List Char → List Atom
  | [] => []
  | c :: cs =>
    if c = '\\' then
      match cs with
      | [] => [Atom.bad]
      | d :: ds => (if d ∈ syntaxChars then Atom.cls (CharClass.lit d) else Atom.bad) :: atoms ds
    else classify c :: atoms cs

/-- Attach every `*` to the character class before it. -/
def toks : List Atom → Option (List Tok)
  | [] => some []
  | Atom.cls a :: Atom.star :: rest => (toks rest).map (Tok.many a :: ·)
  | Atom.cls a :: rest => (toks rest).map (Tok.one a :: ·)
  | Atom.dollar :: rest => (toks rest).map (Tok.eol :: ·)
  | Atom.star :: _ => none
  | Atom.bad :: _ => none

/-- Whether a character is in a class; `.` excludes the line terminators. -/
def CharClass.accepts : CharClass → Char → Bool
  | CharClass.lit c, d => c = d
  | CharClass.any, d => !(d = '\n' ∨ d = '\r' ∨ d.toNat = 0x2028 ∨ d.toNat = 0x2029)

/-- Match `a*` followed by the continuation `k`. -/
def matchMany (a : CharClass) (k : List Char → Bool) : List Char → Bool
  | [] => k []
  | c :: cs => k (c :: cs) || (a.accepts c && matchMany a k cs)

/-- Whether the whole text is matched by the terms. -/
def matchToks : List Tok → List Char → Bool
  | [], s => s.isEmpty
  | Tok.one _ :: _, [] => false
  | Tok.one a :: ts, c :: cs => a.accepts c && matchToks ts cs
  | Tok.many a :: ts, s => matchMany a (matchToks ts) s
  | Tok.eol :: ts, s => s.isEmpty && matchToks ts s

/-- The constructor `std::regex(pattern)` followed by `regex_match(text, ·)`. -/
def ecma_regex (pattern : String) : Option (String → Bool) :=
  (toks (atoms pattern.data)).map fun ts text => matchToks ts text.data

/-! ## Archiver: `zip_file` and `zip_folder` (main.cpp, lines 143-205)

The minizip library is an environment: for every call it says whether the
call succeeds. The calls made on the archive are recorded in order. -/

/-- How the archive library and `std::ifstream` answer. -/
structure ZipEnv where
  /-- Whether `zipOpen` returns a handle for this archive path. -/
  zipOpen : String → Bool
  /-- Whether `zipOpenNewFileInZip` returns `ZIP_OK` for this entry name. -/
  zipOpenNewFileInZip : String → Bool
  /-- Whether `zipWriteInFileInZip` returns `ZIP_OK` for these bytes of this entry. -/
  zipWriteInFileInZip : String → List Nat → Bool
  /-- Whether the source file at this path can be opened for reading. -/
  ifstream : String → Bool

/-- A call on the archive, with its outcome where it has one. -/
inductive ZipCall
  | openNewFileInZip (entry : String) (ok : Bool)
  | writeInFileInZip (entry : String) (bytes : List Nat) (ok : Bool)
  | closeFileInZip
  | close
deriving Repr, DecidableEq

/-- The blocks that the read loop of `zip_file` hands to the library
(lines 161-166): full blocks of `buffer_size` bytes, then the rest if it is
not empty. `fuel` bounds the number of blocks. -/
def readBlocks (buffer_size : Nat) : Nat → List Nat → List (List Nat)
  | 0, _ => []
  | fuel + 1, bytes =>
    if buffer_size ≤ bytes.length ∧ 0 < buffer_size then
      bytes.take buffer_size :: readBlocks buffer_size fuel (bytes.drop buffer_size)
    else if 0 < bytes.length then [bytes]
    else []

/-- The function `zip_file`: its result and the calls it adds. The result of
`zipWriteInFileInZip` is not looked at. -/
def zip_file (env : ZipEnv) (bytes : List Nat) (file_path zip_entry_name : String) :
    Bool × List ZipCall :=
  if !env.zipOpenNewFileInZip zip_entry_name then
    (false, [ZipCall.openNewFileInZip zip_entry_name false])
  else if !env.ifstream file_path then
    (false, [ZipCall.openNewFileInZip zip_entry_name true, ZipCall.closeFileInZip])
  else
    (true, [ZipCall.openNewFileInZip zip_entry_name true]
      ++ (readBlocks 4096 (bytes.length + 1) bytes).map
          (fun b => ZipCall.writeInFileInZip zip_entry_name b
            (env.zipWriteInFileInZip zip_entry_name b))
      ++ [ZipCall.closeFileInZip])

/-- What `recursive_directory_iterator` yields: the path of an entry, its
path relative to the folder, and the node. -/
structure DirItem where
  path : String
  relative : String
  node : Node
deriving Repr

mutual
/-- One entry of the walk, followed by its content when it is a directory. -/
def walkEntry (path relative : String) : Node → List DirItem
  | Node.dir sub => ⟨path, relative, Node.dir sub⟩ :: walkEntries path relative sub
  | Node.file bytes => [⟨path, relative, Node.file bytes⟩]
  | Node.other => [⟨path, relative, Node.other⟩]
/-- The entries of a directory in the order of `recursive_directory_iterator`. -/
def walkEntries (path relative : String) : List (String × Node) → List DirItem
  | [] => []
  | (name, node) :: rest =>
    walkEntry (path_append path name) (path_append relative name) node
      ++ walkEntries path relative rest
end

/-- The loop of `zip_folder` (lines 184-200) and what follows it. -/
def zip_folder_loop (env : ZipEnv) : List DirItem → Bool × List ZipCall
  | [] => (true, [ZipCall.close])
  | item :: rest =>
    match item.node with
    | Node.file bytes =>
      let r := zip_file env bytes item.path item.relative
      if !r.1 then (false, r.2 ++ [ZipCall.close])
      else
        let r2 := zip_folder_loop env rest
        (r2.1, r.2 ++ r2.2)
    | Node.dir _ =>
      let zip_entry_name := item.relative ++ "/"
      let r2 := zip_folder_loop env rest
      (r2.1, [ZipCall.openNewFileInZip zip_entry_name (env.zipOpenNewFileInZip zip_entry_name),
              ZipCall.closeFileInZip] ++ r2.2)
    | Node.other => zip_folder_loop env rest

/-- The function `zip_folder`: its result and the calls made on the archive.
`fs` is the filesystem that the walk sees. The walk throws when the folder
is not a directory. -/
def zip_folder (env : ZipEnv) (fs : FS) (folder_path zip_file_path : String) :
    Except String (Bool × List ZipCall) :=
  if !env.zipOpen zip_file_path then Except.ok (false, [])
  else match stat fs folder_path with
    | some (Node.dir es) => Except.ok (zip_folder_loop env (walkEntries folder_path "" es))
    | _ => Except.error "recursive_directory_iterator"

/-! ## Task factory: `Task::BuildTask` (Task.cpp, lines 3-30)

`Task.h` and the module classes are not among the sources. -/

/-- Modelled from the spec: the enumeration `supported_modules` of the missing
header. `Task.cpp` names `FILE_GRABBER`, `SCREEN_SHOOTER` and the end marker
`NUM_OF_MODULES`; `OTHER` stands for any further member, for which the switch
has no case. -/
inductive supported_modules
  | FILE_GRABBER
  | SCREEN_SHOOTER
  | OTHER (k : Nat)
  | NUM_OF_MODULES
deriving Repr, DecidableEq

/-- Modelled from the spec: a module object, made by the constructor
`FileGrabber(module_name, args)` or `Screenshot(module_name, args)`; it holds
its constructor arguments and nothing else. -/
inductive BaseModule (json : Type)
  | FileGrabber (module_name : String) (args : json)
  | Screenshot (module_name : String) (args : json)
deriving Repr, DecidableEq

/-- The object `Task`: it wraps the pointer `module_derived`, which is null
(`none`) when the switch found no case. -/
structure Task (json : Type) where
  module : Option (BaseModule json)
deriving Repr, DecidableEq

/-- An object made with `new`. -/
inductive Allocation (json : Type)
  | module (m : BaseModule json)
  | task (t : Task json)
deriving Repr, DecidableEq

/-- The function `Task::BuildTask`: the objects it constructs, in order, and
what it returns or throws. `supported_module_for_name` is the lookup
`BaseModule::supported_module_for_name` of the missing registry. -/
def BuildTask {json : Type} (supported_module_for_name : String → supported_modules)
    (module_name : String) (args : json) :
    List (Allocation json) × Except String (Task json) :=
  let sm := supported_module_for_name module_name
  if sm = supported_modules.NUM_OF_MODULES then
    ([], Except.error "Invalid Module")
  else
    match sm with
    | supported_modules.FILE_GRABBER =>
      let module_derived := BaseModule.FileGrabber module_name args
      ([Allocation.module module_derived, Allocation.task ⟨some module_derived⟩],
        Except.ok ⟨some module_derived⟩)
    | supported_modules.SCREEN_SHOOTER =>
      let module_derived := BaseModule.Screenshot module_name args
      ([Allocation.module module_derived, Allocation.task ⟨some module_derived⟩],
        Except.ok ⟨some module_derived⟩)
    | _ => ([Allocation.task ⟨none⟩], Except.ok ⟨none⟩)

/-! ## Concrete filesystems and environments used in the instances -/

/-- The tree of the end-to-end scenario: `/src/a.txt`, `/src/b.jpg`,
`/src/sub/c.txt` and the empty workspace `/ws`. -/
def scenarioFS (a b c : List Nat) : FS :=
  { root := Node.dir
      [("src", Node.dir
          [("a.txt", Node.file a), ("b.jpg", Node.file b),
           ("sub", Node.dir [("c.txt", Node.file c)])]),
       ("ws", Node.dir [])],
    cwd := [] }

/-- The tree of the end-to-end scenario after the run. -/
def scenarioAfter (a b c : List Nat) : FS :=
  { root := Node.dir
      [("src", Node.dir
          [("a.txt", Node.file a), ("b.jpg", Node.file b),
           ("sub", Node.dir [("c.txt", Node.file c)])]),
       ("ws", Node.dir
          [("T1", Node.dir [("_src_a.txt", Node.file a), ("_src_sub_c.txt", Node.file c)])])],
    cwd := [] }

/-- The descriptor `T1` of the end-to-end scenario. -/
def scenarioT1 : TaskDescriptor :=
  { task_id := "T1", start_path := "/src", files := [".*\\.txt$"] }

/-- An archive library whose writes into the entry `a.bin` fail and on which
everything else succeeds. -/
def failingWriteEnv : ZipEnv :=
  { zipOpen := fun _ => true,
    zipOpenNewFileInZip := fun _ => true,
    zipWriteInFileInZip := fun entry _ => entry != "a.bin",
    ifstream := fun _ => true }

/-- A staging directory `/ws` with the files `a.bin` and `b.bin`. -/
def stagedFS : FS :=
  { root := Node.dir
      [("ws", Node.dir [("a.bin", Node.file [1, 2, 3]), ("b.bin", Node.file [4])])],
    cwd := [] }

/-- A registry that knows two names. -/
def sampleRegistry (module_name : String) : supported_modules :=
  if module_name = "file_grabber" then supported_modules.FILE_GRABBER
  else if module_name = "screenshot" then supported_modules.SCREEN_SHOOTER
  else supported_modules.NUM_OF_MODULES

/-- A descriptor with two patterns that both match `/src/a.txt`. -/
def twoPatternsT1 : TaskDescriptor :=
  { task_id := "T1", start_path := "/src", files := [".*\\.txt$", ".*a.*"] }

/-- A descriptor whose staging directory `/ws/T9/x` cannot be created in the
scenario, because `/ws/T9` does not exist. -/
def noStagingT9 : TaskDescriptor :=
  { task_id := "T9/x", start_path := "/src", files := [".*\\.txt$"] }

/-- A descriptor whose start path does not exist. -/
def missingT0 : TaskDescriptor :=
  { task_id := "T0", start_path := "/missing", files := [".*"] }

/-- A descriptor whose start path does not exist; its key is `T1`. -/
def missingT1 : TaskDescriptor :=
  { task_id := "T1", start_path := "/missing", files := [".*"] }

/-- A descriptor that stages below the staging directory of `T1`. -/
def nestedT1x : TaskDescriptor :=
  { task_id := "T1/x", start_path := "/src", files := [".*"] }

/-- A descriptor that scans the staging directory of `T1`. -/
def rescanT2 : TaskDescriptor :=
  { task_id := "T2", start_path := "/ws/T1", files := [".*"] }


/-- Whether a node is a directory. -/
def Node.isDir : Node → Bool
  | Node.dir _ => true
  | _ => false

/-- The first statement of `run_grab_task`: `create_directory` inside
`try`/`catch`. -/
def try_create_directory (fs : FS) (p : String) : FS :=
  match create_directory fs p with
  | Except.ok fs1 => fs1
  | Except.error _ => fs

/-- The inner loop of `parse_tasks`: one descriptor, all its patterns. -/
def run_filters (rx : String → Option (String → Bool)) (working_dir : String)
    (d : TaskDescriptor) (st : FS × Nat) : FS × Nat :=
  d.files.foldl (fun st filter =>
    let r := run_grab_task rx st.1 working_dir d.start_path filter d.task_id
    (r.1, st.2 + r.2)) st

mutual
/-- The number of regular files in a tree. -/
def Node.fileCount : Node → Nat
  | Node.file _ => 1
  | Node.dir es => fileCountEntries es
  | Node.other => 0
/-- The number of regular files below the entries of a directory. -/
def fileCountEntries : List (String × Node) → Nat
  | [] => 0
  | (_, n) :: rest => n.fileCount + fileCountEntries rest
end

/-- The number of paths that `list_files` returns to `run_grab_task` for one
pattern (none when it throws), in the filesystem in which the scan is made. -/
def found_one (rx : String → Option (String → Bool)) (fs : FS)
    (working_dir directory filter task_id : String) : Nat :=
  match list_files rx (try_create_directory fs (working_dir ++ "/" ++ task_id))
      working_dir directory true filter true with
  | Except.ok files => files.length
  | Except.error _ => 0

/-- The paths found for the patterns of one descriptor, each pattern scanned
in the filesystem that the patterns before it left. -/
def found_filters (rx : String → Option (String → Bool)) (working_dir : String)
    (start_path task_id : String) : FS → List String → Nat
  | _, [] => 0
  | fs, filter :: rest =>
    found_one rx fs working_dir start_path filter task_id
      + found_filters rx working_dir start_path task_id
          (run_grab_task rx fs working_dir start_path filter task_id).1 rest

/-- The paths found over all descriptors and patterns. -/
def found_total (rx : String → Option (String → Bool)) (working_dir : String) :
    FS → List TaskDescriptor → Nat
  | _, [] => 0
  | fs, d :: rest =>
    found_filters rx working_dir d.start_path d.task_id fs d.files
      + found_total rx working_dir (run_filters rx working_dir d (fs, 0)).1 rest

mutual
/-- No entry of the tree has an empty name. -/
def Node.namesNonempty : Node → Bool
  | Node.dir es => namesNonemptyEntries es
  | _ => true
/-- No entry of the listing, at any depth, has an empty name. -/
def namesNonemptyEntries : List (String × Node) → Bool
  | [] => true
  | (name, n) :: rest => name != "" && n.namesNonempty && namesNonemptyEntries rest
end

/-! ## Theorems: binary encoder -/

theorem encFinish_foldl : ∀ (data : List Nat) (c0 c1 c2 : Nat) (r : List Char),
    encFinish (data.foldl encStep { i := 0, c0 := c0, c1 := c1, c2 := c2, result := r })
      = r ++ encGroups data
  | [], c0, c1, c2, r => by simp [encFinish, encGroups]
  | [a], c0, c1, c2, r => by
    simp [encFinish, encGroups, encStep, EncState.store, List.range', quad, char_array_4]
  | [a, b], c0, c1, c2, r => by
    simp [encFinish, encGroups, encStep, EncState.store, List.range', quad, char_array_4]
  | a :: b :: c :: rest, c0, c1, c2, r => by
    have ih := encFinish_foldl rest a b c (r ++ (quad a b c).map base64_char_at)
    simp only [List.foldl_cons, encStep, EncState.store]
    simp only [Nat.reduceAdd, Nat.reduceEqDiff, ↓reduceIte, Nat.succ_ne_self, OfNat.ofNat_ne_one,
      one_ne_zero, zero_add] at ih ⊢
    simpa [encGroups, quad, char_array_4] using ih

theorem base64_encode_data (data : List Nat) :
    (base64_encode data).data = encGroups data := by
  simp [base64_encode, encInit, encFinish_foldl]

set_option maxRecDepth 100000 in
theorem quad_eq_aux : ∀ a, a < 256 →
    ((a &&& 0xfc) >>> 2 = a / 4 ∧ (a &&& 0x03) <<< 4 = a % 4 * 16 ∧ (a &&& 0xf0) >>> 4 = a / 16
      ∧ (a &&& 0x0f) <<< 2 = a % 16 * 4 ∧ (a &&& 0xc0) >>> 6 = a / 64 ∧ a &&& 0x3f = a % 64) := by
  decide

theorem quad_eq (a b c : Nat) (ha : a < 256) (hb : b < 256) (hc : c < 256) :
    quad a b c = [a / 4, a % 4 * 16 + b / 16, b % 16 * 4 + c / 64, c % 64] := by
  obtain ⟨a1, a2, -, -, -, -⟩ := quad_eq_aux a ha
  obtain ⟨-, -, b3, b4, -, -⟩ := quad_eq_aux b hb
  obtain ⟨-, -, -, -, c5, c6⟩ := quad_eq_aux c hc
  simp only [quad, char_array_4, a1, a2, b3, b4, c5, c6]
  have h1 : a / 4 % 256 = a / 4 := Nat.mod_eq_of_lt (by omega)
  have h2 : (a % 4 * 16 + b / 16) % 256 = a % 4 * 16 + b / 16 := Nat.mod_eq_of_lt (by omega)
  have h3 : (b % 16 * 4 + c / 64) % 256 = b % 16 * 4 + c / 64 := Nat.mod_eq_of_lt (by omega)
  have h4 : c % 64 % 256 = c % 64 := Nat.mod_eq_of_lt (by omega)
  rw [h1, h2, h3, h4]

set_option maxRecDepth 100000 in
theorem base64_char_at_spec : ∀ k, k < 64 →
    (base64_value (base64_char_at k) = some k ∧ base64_char_at k ≠ '='
      ∧ base64_char_at k ∈ base64_chars) := by
  decide

theorem quad_lt (a b c : Nat) : ∀ v ∈ quad a b c, v < 64 := by
  have h1 : a &&& 0xfc ≤ 0xfc := Nat.and_le_right
  have h2 : a &&& 0x03 ≤ 0x03 := Nat.and_le_right
  have h3 : b &&& 0xf0 ≤ 0xf0 := Nat.and_le_right
  have h4 : b &&& 0x0f ≤ 0x0f := Nat.and_le_right
  have h5 : c &&& 0xc0 ≤ 0xc0 := Nat.and_le_right
  have h6 : c &&& 0x3f ≤ 0x3f := Nat.and_le_right
  intro v hv
  simp only [quad, char_array_4, Nat.shiftRight_eq_div_pow, Nat.shiftLeft_eq, List.mem_cons,
    List.mem_singleton, List.not_mem_nil, or_false] at hv
  omega

theorem decode_encGroups : ∀ (data : List Nat), (∀ b ∈ data, b < 256) →
    base64_decode_chars (encGroups data) = some data
  | [], _ => by simp [encGroups, base64_decode_chars]
  | [a], h => by
    have ha : a < 256 := h a (by simp)
    obtain ⟨v0, n0, -⟩ := base64_char_at_spec (a / 4) (by omega)
    obtain ⟨v1, n1, -⟩ := base64_char_at_spec (a % 4 * 16 + 0 / 16) (by omega)
    rw [encGroups, quad_eq a 0 0 ha (by omega) (by omega)]
    simp only [List.take, List.map,
      List.cons_append, List.nil_append, base64_decode_chars, v0, v1, Option.bind, and_self,
      ↓reduceIte]
    simp only [Option.some.injEq, List.cons.injEq, and_true, true_and]
    omega
  | [a, b], h => by
    have ha : a < 256 := h a (by simp)
    have hb : b < 256 := h b (by simp)
    obtain ⟨v0, n0, -⟩ := base64_char_at_spec (a / 4) (by omega)
    obtain ⟨v1, n1, -⟩ := base64_char_at_spec (a % 4 * 16 + b / 16) (by omega)
    obtain ⟨v2, n2, -⟩ := base64_char_at_spec (b % 16 * 4 + 0 / 64) (by omega)
    rw [encGroups, quad_eq a b 0 ha hb (by omega)]
    simp only [List.take, List.map,
      List.cons_append, List.nil_append, base64_decode_chars, v0, v1, v2, n2, Option.bind,
      ↓reduceIte]
    simp only [Option.some.injEq, List.cons.injEq, and_true, true_and]
    omega
  | a :: b :: c :: rest, h => by
    have ha : a < 256 := h a (by simp)
    have hb : b < 256 := h b (by simp)
    have hc : c < 256 := h c (by simp)
    have ih := decode_encGroups rest (fun x hx => h x (by simp [hx]))
    obtain ⟨v0, n0, -⟩ := base64_char_at_spec (a / 4) (by omega)
    obtain ⟨v1, n1, -⟩ := base64_char_at_spec (a % 4 * 16 + b / 16) (by omega)
    obtain ⟨v2, n2, -⟩ := base64_char_at_spec (b % 16 * 4 + c / 64) (by omega)
    obtain ⟨v3, n3, -⟩ := base64_char_at_spec (c % 64) (by omega)
    rw [encGroups, quad_eq a b c ha hb hc]
    simp only [List.map,
      List.cons_append, List.nil_append, base64_decode_chars, v0, v1, v2, v3, n2, n3, ih,
      Option.bind, ↓reduceIte]
    simp only [List.append_eq, List.nil_append, ih, Option.some.injEq, List.cons.injEq, and_true]
    omega

/-- C1. Decoding the output of `base64_encode` with the standard decoder
gives back the input, for every byte buffer (of any length). -/
theorem base64_round_trip (data : List Nat) (h : ∀ b ∈ data, b < 256) :
    base64_decode (base64_encode data) = some data := by
  rw [base64_decode, base64_encode_data]
  exact decode_encGroups data h

/-- An instance of C1 on a buffer of five bytes. -/
theorem base64_round_trip_witness :
    (∀ b ∈ [0, 255, 77, 97, 110], b < 256)
      ∧ base64_decode (base64_encode [0, 255, 77, 97, 110]) = some [0, 255, 77, 97, 110] :=
  ⟨by decide, base64_round_trip [0, 255, 77, 97, 110] (by decide)⟩

set_option maxRecDepth 100000 in
theorem base64_char_at_symbol : ∀ k, k < 64 →
    ((base64_char_at k).isAlphanum = true ∨ base64_char_at k = '+' ∨ base64_char_at k = '/') := by
  decide

theorem quad_length (a b c : Nat) : (quad a b c).length = 4 := rfl

theorem encGroups_shape : ∀ (data : List Nat),
    ∃ body : List Char,
      encGroups data = body ++ List.replicate
          (if data.length % 3 = 0 then 0 else if data.length % 3 = 2 then 1 else 2) '='
        ∧ (∀ c ∈ body, c.isAlphanum = true ∨ c = '+' ∨ c = '/')
        ∧ body.length = 4 * (data.length / 3) + (if data.length % 3 = 0 then 0 else data.length % 3 + 1)
  | [] => ⟨[], by simp [encGroups]⟩
  | [a] => by
    refine ⟨((quad a 0 0).take 2).map base64_char_at, by simp [encGroups, List.replicate], ?_, ?_⟩
    · intro c hc
      obtain ⟨v, hv, rfl⟩ := List.mem_map.mp hc
      exact base64_char_at_symbol v (quad_lt a 0 0 v (List.mem_of_mem_take hv))
    · simp [quad_length]
  | [a, b] => by
    refine ⟨((quad a b 0).take 3).map base64_char_at, by simp [encGroups, List.replicate], ?_, ?_⟩
    · intro c hc
      obtain ⟨v, hv, rfl⟩ := List.mem_map.mp hc
      exact base64_char_at_symbol v (quad_lt a b 0 v (List.mem_of_mem_take hv))
    · simp [quad_length]
  | a :: b :: c :: rest => by
    obtain ⟨body, h1, h2, h3⟩ := encGroups_shape rest
    have hl : (a :: b :: c :: rest).length = rest.length + 3 := rfl
    have hm : (rest.length + 3) % 3 = rest.length % 3 := by omega
    have hd : (rest.length + 3) / 3 = rest.length / 3 + 1 := by omega
    refine ⟨(quad a b c).map base64_char_at ++ body, ?_, ?_, ?_⟩
    · rw [encGroups, h1, hl, hm, List.append_assoc]
    · intro x hx
      rcases List.mem_append.mp hx with hx | hx
      · obtain ⟨v, hv, rfl⟩ := List.mem_map.mp hx
        exact base64_char_at_symbol v (quad_lt a b c v hv)
      · exact h2 x hx
    · rw [List.length_append, List.length_map, quad_length, h3, hl, hm, hd]
      omega

/-- C8. The output of `base64_encode` on a buffer of `n` bytes has
`4 * ceil(n / 3)` characters; it is a run of symbols of the alphabet
`A-Z a-z 0-9 + /` followed by 0, 1 or 2 characters `=` when `n mod 3` is
0, 2 or 1, and `=` is not a symbol of the alphabet. -/
theorem base64_encode_shape (data : List Nat) :
    (base64_encode data).length = 4 * ((data.length + 2) / 3)
      ∧ ∃ body : List Char,
          (base64_encode data).data = body ++ List.replicate
              (if data.length % 3 = 0 then 0 else if data.length % 3 = 2 then 1 else 2) '='
            ∧ ∀ c ∈ body, (c.isAlphanum = true ∨ c = '+' ∨ c = '/') ∧ c ≠ '=' := by
  obtain ⟨body, h1, h2, h3⟩ := encGroups_shape data
  have hlen : (base64_encode data).length = (base64_encode data).data.length := rfl
  refine ⟨?_, body, ?_, ?_⟩
  · rw [hlen, base64_encode_data, h1, List.length_append, List.length_replicate, h3]
    split_ifs <;> omega
  · rw [base64_encode_data, h1]
  · intro c hc
    refine ⟨h2 c hc, ?_⟩
    rintro rfl
    have := h2 _ hc
    revert this
    decide

/-! ## Lemmas: the filesystem model -/

theorem lookupEntry_append_some (c : String) (m : Node) (es l : List (String × Node))
    (h : lookupEntry c es = some m) : lookupEntry c (es ++ l) = some m := by
  induction es with
  | nil => simp [lookupEntry] at h
  | cons e rest ih =>
    obtain ⟨n, x⟩ := e
    simp only [lookupEntry, List.cons_append] at h ⊢
    split_ifs at h ⊢ with hn
    · exact h
    · exact ih h

theorem lookupEntry_append_none (c : String) (es l : List (String × Node))
    (h : lookupEntry c es = none) : lookupEntry c (es ++ l) = lookupEntry c l := by
  induction es with
  | nil => rfl
  | cons e rest ih =>
    obtain ⟨n, x⟩ := e
    simp only [lookupEntry, List.cons_append] at h ⊢
    split_ifs at h ⊢ with hn
    exact ih h

theorem lookupEntry_modify_same (c : String) (f : Node → Node) (es : List (String × Node)) :
    lookupEntry c (modifyEntry c f es) = (lookupEntry c es).map f := by
  induction es with
  | nil => rfl
  | cons e rest ih =>
    obtain ⟨n, x⟩ := e
    by_cases hn : n = c
    · simp [lookupEntry, modifyEntry, hn]
    · simp [lookupEntry, modifyEntry, hn, ih]

theorem lookupEntry_modify_other (c p : String) (f : Node → Node) (es : List (String × Node))
    (hcp : c ≠ p) : lookupEntry c (modifyEntry p f es) = lookupEntry c es := by
  induction es with
  | nil => rfl
  | cons e rest ih =>
    obtain ⟨n, x⟩ := e
    by_cases hn : n = p
    · subst hn
      have hnc : ¬ n = c := fun h => hcp h.symm
      simp [lookupEntry, modifyEntry, hnc]
    · by_cases hnc : n = c
      · subst hnc
        simp [lookupEntry, modifyEntry, hn]
      · simp [lookupEntry, modifyEntry, hn, hnc, ih]

theorem Node.get_nil (n : Node) : n.get [] = some n := by
  cases n <;> rfl

theorem Node.get_cons_dir (es : List (String × Node)) (c : String) (cs : List String) :
    (Node.dir es).get (c :: cs) = (lookupEntry c es).bind (fun m => m.get cs) := by
  simp only [Node.get]
  cases lookupEntry c es <;> rfl

theorem Node.get_cons_isSome {n : Node} {c : String} {cs : List String}
    (h : (n.get (c :: cs)).isSome) : ∃ es, n = Node.dir es := by
  cases n with
  | dir es => exact ⟨es, rfl⟩
  | file b => simp [Node.get] at h
  | other => simp [Node.get] at h

theorem Node.get_append (n : Node) (p q : List String) :
    n.get (p ++ q) = (n.get p).bind (fun m => m.get q) := by
  induction p generalizing n with
  | nil => simp [Node.get_nil]
  | cons c cs ih =>
    cases n with
    | dir es =>
      simp only [List.cons_append, Node.get_cons_dir]
      cases lookupEntry c es with
      | none => rfl
      | some m => simpa using ih m
    | file b => simp [Node.get]
    | other => simp [Node.get]

/-- After an insertion under `parent`, the directory `parent` has the new entry
at the end. -/
theorem Node.get_insert_parent (root : Node) (parent : List String) (name : String) (x : Node)
    (es : List (String × Node)) (h : root.get parent = some (Node.dir es)) :
    (Node.insert parent name x root).get parent = some (Node.dir (es ++ [(name, x)])) := by
  induction parent generalizing root with
  | nil =>
    rw [Node.get_nil] at h
    cases h
    simp [Node.insert, Node.get_nil]
  | cons c cs ih =>
    obtain ⟨es0, rfl⟩ := Node.get_cons_isSome (by rw [h]; rfl)
    rw [Node.get_cons_dir] at h
    cases hl : lookupEntry c es0 with
    | none => simp [hl] at h
    | some m =>
      rw [hl] at h
      simp only [Node.insert, Node.get_cons_dir, lookupEntry_modify_same, hl, Option.map_some',
        Option.some_bind]
      exact ih m h

/-- An insertion keeps every node in its place and keeps its kind. -/
theorem Node.get_insert_mono (root : Node) (parent : List String) (name : String) (x : Node)
    (es : List (String × Node)) (h : root.get parent = some (Node.dir es))
    (q : List String) (n : Node) (hq : root.get q = some n) :
    ∃ n1, (Node.insert parent name x root).get q = some n1 ∧ n1.isDir = n.isDir := by
  induction parent generalizing root q n with
  | nil =>
    rw [Node.get_nil] at h
    cases h
    cases q with
    | nil =>
      rw [Node.get_nil] at hq
      cases hq
      exact ⟨_, Node.get_nil _, rfl⟩
    | cons c cs =>
      rw [Node.get_cons_dir] at hq
      cases hl : lookupEntry c es with
      | none => simp [hl] at hq
      | some m =>
        refine ⟨n, ?_, rfl⟩
        simp only [Node.insert, Node.get_cons_dir, lookupEntry_append_some c m es _ hl]
        simpa [hl] using hq
  | cons p ps ih =>
    obtain ⟨es0, rfl⟩ := Node.get_cons_isSome (by rw [h]; rfl)
    rw [Node.get_cons_dir] at h
    cases hl : lookupEntry p es0 with
    | none => simp [hl] at h
    | some m =>
      rw [hl] at h
      cases q with
      | nil =>
        rw [Node.get_nil] at hq
        cases hq
        exact ⟨_, Node.get_nil _, rfl⟩
      | cons c cs =>
        rw [Node.get_cons_dir] at hq
        by_cases hcp : c = p
        · subst hcp
          rw [hl] at hq
          obtain ⟨n1, h1, h2⟩ := ih m h cs n hq
          refine ⟨n1, ?_, h2⟩
          simp only [Node.insert, Node.get_cons_dir, lookupEntry_modify_same, hl,
            Option.map_some', Option.some_bind]
          exact h1
        · refine ⟨n, ?_, rfl⟩
          simp only [Node.insert, Node.get_cons_dir, lookupEntry_modify_other c p _ es0 hcp]
          exact hq

/-- Resolution is stable under insertion: a walk that succeeds still succeeds,
and ends in the same place. -/
theorem walk_insert (root : Node) (parent : List String) (name : String) (x : Node)
    (es : List (String × Node)) (h : root.get parent = some (Node.dir es))
    (cur comps q : List String) (hw : walk root cur comps = some q) :
    walk (Node.insert parent name x root) cur comps = some q := by
  induction comps generalizing cur with
  | nil => exact hw
  | cons c cs ih =>
    simp only [walk] at hw ⊢
    split at hw
    · rename_i es1 hcur
      obtain ⟨n1, hn1, hd1⟩ := Node.get_insert_mono root parent name x es h cur _ hcur
      cases n1 with
      | dir es2 =>
        simp only [hn1]
        split_ifs at hw ⊢ with h1 h2 h3
        · exact ih _ hw
        · exact ih _ hw
        · split at hw
          · rename_i m hm
            obtain ⟨n2, hn2, -⟩ := Node.get_insert_mono root parent name x es h _ _ hm
            simp only [hn2]
            exact ih _ hw
          · cases hw
      | file b => simp [Node.isDir] at hd1
      | other => simp [Node.isDir] at hd1
    · cases hw

/-- A walk that starts at an existing node ends at an existing node. -/
theorem walk_isSome (root : Node) (cur comps q : List String)
    (hcur : (root.get cur).isSome) (hw : walk root cur comps = some q) :
    (root.get q).isSome := by
  induction comps generalizing cur with
  | nil => cases hw; exact hcur
  | cons c cs ih =>
    simp only [walk] at hw
    split at hw
    · rename_i es1 hc
      split_ifs at hw with h1 h2 h3
      · exact ih _ hcur hw
      · refine ih _ ?_ hw
        have : cur = cur.dropLast ++ cur.drop (cur.length - 1) := by
          rw [List.dropLast_eq_take]; exact (List.take_append_drop _ _).symm
        rw [this, Node.get_append] at hcur
        cases hg : root.get cur.dropLast with
        | none => simp [hg] at hcur
        | some _ => rfl
      · split at hw
        · rename_i m hm
          exact ih _ (by rw [hm]; rfl) hw
        · cases hw
    · cases hw

/-- A walk that succeeds met no name over `NAME_MAX`. -/
theorem walkTooLong_of_walk (root : Node) (cur comps q : List String)
    (hw : walk root cur comps = some q) : walkTooLong root cur comps = false := by
  induction comps generalizing cur with
  | nil => rfl
  | cons c cs ih =>
    simp only [walk] at hw
    simp only [walkTooLong]
    split at hw
    · rename_i es1 hc
      try simp only [hc]
      split_ifs at hw ⊢ with h1 h2 h3
      · exact ih _ hw
      · exact ih _ hw
      · split at hw
        · rename_i m hm
          try simp only [hm]
          exact ih _ hw
        · cases hw
    · cases hw

/-- What a successful `createAt` did. -/
theorem createAt_spec {fs fs1 : FS} {p : String} {pre : List String} {name : String} {x : Node}
    (h : createAt fs p pre name x = some fs1) :
    (name ≠ "" ∧ name ≠ "." ∧ name ≠ "..") ∧ nameTooLong name = false ∧
    ∃ parent es, walk fs.root (startDir fs p) pre = some parent
      ∧ fs.root.get parent = some (Node.dir es)
      ∧ lookupEntry name es = none
      ∧ fs1 = { fs with root := Node.insert parent name x fs.root } := by
  unfold createAt at h
  split_ifs at h with hname hlong
  refine ⟨by simpa [not_or] using hname, by simpa using hlong, ?_⟩
  split at h
  · cases h
  · rename_i parent hwalk
    split at h
    · rename_i es hget
      split at h
      · cases h
      · rename_i hlook
        cases h
        exact ⟨parent, es, hwalk, hget, hlook, rfl⟩
    · cases h

theorem startDir_root_irrel (fs : FS) (r : Node) (p : String) :
    startDir { fs with root := r } p = startDir fs p := rfl

/-- What a successful `copy_file` did. -/
theorem copy_file_spec {fs fs1 : FS} {source target : String}
    (h : copy_file fs source target = Except.ok fs1) :
    ∃ bytes name, stat fs source = some (Node.file bytes) ∧ target ≠ ""
      ∧ (components target).getLast? = some name
      ∧ createAt fs target (components target).dropLast name (Node.file bytes) = some fs1 := by
  unfold copy_file at h
  split at h
  · rename_i bytes hs
    split_ifs at h with ht
    simp only at h
    split at h
    · cases h
    · rename_i name hlast
      split at h
      · rename_i fs2 hc
        cases h
        exact ⟨bytes, name, hs, ht, hlast, hc⟩
      · cases h
  · cases h

/-- The three ways in which `copy_file_to_folder` ends. -/
theorem copy_file_to_folder_cases (fs : FS) (source_path destination_folder : String) :
    copy_file_to_folder fs source_path destination_folder = fs
      ∨ (is_directory fs destination_folder = true
          ∧ copy_file fs source_path
              (path_append destination_folder (replace_slashes_with_underscores source_path))
            = Except.ok (copy_file_to_folder fs source_path destination_folder)) := by
  by_cases hd : is_directory fs destination_folder = true
  · cases he : fs_exists fs
        (path_append destination_folder (replace_slashes_with_underscores source_path)) with
    | error e => left; simp [copy_file_to_folder, hd, he]
    | ok found =>
      cases found with
      | true => left; simp [copy_file_to_folder, hd, he]
      | false =>
        cases hc : copy_file fs source_path
            (path_append destination_folder (replace_slashes_with_underscores source_path)) with
        | error e => left; simp [copy_file_to_folder, hd, he, hc]
        | ok fs1 => right; exact ⟨hd, by simp [copy_file_to_folder, hd, he, hc]⟩
  · left; simp [copy_file_to_folder, hd]

/-- A path that names a node does not make `status` throw. -/
theorem status_throws_of_stat {fs : FS} {p : String} {n : Node} (h : stat fs p = some n) :
    status_throws fs p = false := by
  unfold stat resolve at h
  split_ifs at h with hp
  · simp at h
  · cases hw : walk fs.root (startDir fs p) (components p) with
    | none => simp [hw] at h
    | some q => exact walkTooLong_of_walk _ _ _ _ hw

/-- C7. `Task::BuildTask` on a name that the registry does not resolve
(it answers `NUM_OF_MODULES`) throws "Invalid Module" and constructs no
object; on every other name it throws nothing and returns a `Task`, which
is the last object it constructed. -/
theorem BuildTask_unsupported_iff {json : Type}
    (supported_module_for_name : String → supported_modules)
    (module_name : String) (args : json) :
    (supported_module_for_name module_name = supported_modules.NUM_OF_MODULES
        ∧ BuildTask supported_module_for_name module_name args
            = ([], Except.error "Invalid Module"))
      ∨ (supported_module_for_name module_name ≠ supported_modules.NUM_OF_MODULES
        ∧ ∃ t : Task json,
            (BuildTask supported_module_for_name module_name args).2 = Except.ok t
              ∧ (BuildTask supported_module_for_name module_name args).1.getLast?
                  = some (Allocation.task t)) := by
  by_cases h : supported_module_for_name module_name = supported_modules.NUM_OF_MODULES
  · left
    exact ⟨h, by simp [BuildTask, h]⟩
  · right
    refine ⟨h, ?_⟩
    unfold BuildTask
    simp only [h, ↓reduceIte]
    split <;> exact ⟨_, rfl, rfl⟩

/-- An instance of C7: with a registry that knows two names, the name
`nonexistent` is refused and nothing is constructed. -/
theorem BuildTask_unsupported_iff_witness :
    BuildTask sampleRegistry "nonexistent" () = ([], Except.error "Invalid Module") := by
  rcases BuildTask_unsupported_iff sampleRegistry "nonexistent" () with h | h
  · exact h.2
  · exact absurd (by decide) h.1

/-! ## Theorems: end-to-end scenario -/

theorem parse_tasks_scenario_eq (a b c : List Nat) :
    parse_tasks ecma_regex (scenarioFS a b c) "/ws" [scenarioT1] = (scenarioAfter a b c, 2) :=
  rfl

/-- C9. On the tree `/src/a.txt`, `/src/b.jpg`, `/src/sub/c.txt` with the
empty workspace `/ws`, `parse_tasks` with the descriptor `T1` (start path
`/src`, pattern `.*\.txt$`) returns 2, and afterwards the staging directory
`/ws/T1` holds exactly `_src_a.txt` and `_src_sub_c.txt`, with the bytes of
`/src/a.txt` and `/src/sub/c.txt`; the workspace holds nothing else and
`/src` is as before. -/
theorem parse_tasks_scenario (a b c : List Nat) :
    (parse_tasks ecma_regex (scenarioFS a b c) "/ws" [scenarioT1]).2 = 2
      ∧ stat (parse_tasks ecma_regex (scenarioFS a b c) "/ws" [scenarioT1]).1 "/ws/T1"
          = some (Node.dir [("_src_a.txt", Node.file a), ("_src_sub_c.txt", Node.file c)])
      ∧ stat (parse_tasks ecma_regex (scenarioFS a b c) "/ws" [scenarioT1]).1 "/ws"
          = some (Node.dir [("T1",
              Node.dir [("_src_a.txt", Node.file a), ("_src_sub_c.txt", Node.file c)])])
      ∧ stat (parse_tasks ecma_regex (scenarioFS a b c) "/ws" [scenarioT1]).1 "/src"
          = stat (scenarioFS a b c) "/src" := by
  rw [parse_tasks_scenario_eq]
  exact ⟨rfl, rfl, rfl, rfl⟩

/-! ## Theorems: archiver -/

/-- Whatever the writes return, `zip_file` returns `true` once the entry and
the source file have been opened. -/
theorem zip_file_ignores_writes (env : ZipEnv) (bytes : List Nat)
    (file_path zip_entry_name : String)
    (hentry : env.zipOpenNewFileInZip zip_entry_name = true)
    (hfile : env.ifstream file_path = true) :
    (zip_file env bytes file_path zip_entry_name).1 = true := by
  simp [zip_file, hentry, hfile]

/-- C10, the code at the failing input. The folder `/ws` holds `a.bin` and
`b.bin` and every write into the entry `a.bin` fails: `zip_file` returns
`true` for `a.bin`, and `zip_folder` adds `b.bin` after it and returns `true`. -/
theorem zip_folder_ignores_write_failure :
    failingWriteEnv.zipWriteInFileInZip "a.bin" [1, 2, 3] = false
      ∧ (zip_file failingWriteEnv [1, 2, 3] "/ws/a.bin" "a.bin").1 = true
      ∧ zip_folder failingWriteEnv stagedFS "/ws" "/tmp/out.zip"
        = Except.ok (true,
            [ZipCall.openNewFileInZip "a.bin" true,
             ZipCall.writeInFileInZip "a.bin" [1, 2, 3] false,
             ZipCall.closeFileInZip,
             ZipCall.openNewFileInZip "b.bin" true,
             ZipCall.writeInFileInZip "b.bin" [4] true,
             ZipCall.closeFileInZip,
             ZipCall.close]) := by
  refine ⟨rfl, ?_, rfl⟩
  exact zip_file_ignores_writes failingWriteEnv [1, 2, 3] "/ws/a.bin" "a.bin" rfl rfl

/-! ## Theorems: staging copier -/

theorem mkdir_spec {fs fs1 : FS} {p : String} (h : mkdir fs p = some fs1) :
    ∃ name, (dropTrailingEmpty (components p)).getLast? = some name
      ∧ createAt fs p (dropTrailingEmpty (components p)).dropLast name (Node.dir []) = some fs1 := by
  unfold mkdir at h
  split_ifs at h with hp
  simp only at h
  split at h
  · cases h
  · rename_i name hlast
    exact ⟨name, hlast, h⟩

/-- Once `mkdir` has made a directory, `mkdir` on the same path fails. -/
theorem mkdir_twice {fs fs1 : FS} {p : String} (h : mkdir fs p = some fs1) :
    mkdir fs1 p = none := by
  obtain ⟨name, hlast, hc⟩ := mkdir_spec h
  obtain ⟨hname, hlong, parent, es, hw, hg, hl, rfl⟩ := createAt_spec hc
  have hw1 := walk_insert fs.root parent name (Node.dir []) es hg _ _ parent hw
  have hg1 := Node.get_insert_parent fs.root parent name (Node.dir []) es hg
  have hl1 : lookupEntry name (es ++ [(name, Node.dir [])]) = some (Node.dir []) := by
    rw [lookupEntry_append_none name es _ hl]
    simp [lookupEntry]
  unfold mkdir
  split_ifs with hp
  · rfl
  · simp only [hlast, createAt, startDir_root_irrel, hw1, hg1, hl1]
    simp

theorem try_create_directory_twice (fs : FS) (p : String) :
    try_create_directory (try_create_directory fs p) p = try_create_directory fs p := by
  cases hm : mkdir fs p with
  | none =>
    have h1 : try_create_directory fs p = fs := by
      simp only [try_create_directory, create_directory, hm]
      split_ifs <;> rfl
    rw [h1, h1]
  | some fs1 =>
    have h1 : try_create_directory fs p = fs1 := by
      simp only [try_create_directory, create_directory, hm]
    rw [h1]
    simp only [try_create_directory, create_directory, mkdir_twice hm]
    split_ifs <;> rfl

/-- When the start path is not a directory `list_files` throws. -/
theorem list_files_error (rx : String → Option (String → Bool)) (fs : FS)
    (working_dir root : String) (recursive : Bool) (filter : String) (regularFilesOnly : Bool)
    (h : is_directory fs root = false) :
    ∃ e, list_files rx fs working_dir root recursive filter regularFilesOnly
      = Except.error e := by
  unfold list_files
  unfold is_directory at h
  by_cases ht : status_throws fs root = true
  · exact ⟨_, by rw [if_pos ht]⟩
  · rw [if_neg ht]
    cases hs : stat fs root with
    | none => exact ⟨_, rfl⟩
    | some n =>
      cases n with
      | dir es => simp [hs] at h
      | file b => exact ⟨_, rfl⟩
      | other => exact ⟨_, rfl⟩

theorem run_grab_task_eq (rx : String → Option (String → Bool)) (fs : FS)
    (working_dir directory filter task_id : String) :
    run_grab_task rx fs working_dir directory filter task_id
      = (match list_files rx (try_create_directory fs (working_dir ++ "/" ++ task_id))
              working_dir directory true filter true with
          | Except.ok files => files
          | Except.error _ => []).foldl
          (fun st file =>
            (copy_file_to_folder st.1 file (working_dir ++ "/" ++ task_id), st.2 + 1))
          (try_create_directory fs (working_dir ++ "/" ++ task_id), 0) := rfl

/-- A pattern run on a start path that is not a directory finds nothing and
leaves the filesystem as `create_directory` left it. -/
theorem run_grab_task_bad (rx : String → Option (String → Bool)) (fs : FS)
    (working_dir directory filter task_id : String)
    (h : is_directory (try_create_directory fs (working_dir ++ "/" ++ task_id)) directory
          = false) :
    run_grab_task rx fs working_dir directory filter task_id
      = (try_create_directory fs (working_dir ++ "/" ++ task_id), 0) := by
  obtain ⟨e, he⟩ := list_files_error rx _ working_dir directory true filter true h
  rw [run_grab_task_eq, he]
  rfl

theorem parse_tasks_eq (rx : String → Option (String → Bool)) (fs : FS) (working_dir : String)
    (j : List TaskDescriptor) :
    parse_tasks rx fs working_dir j = j.foldl (fun st d => run_filters rx working_dir d st) (fs, 0) :=
  rfl

theorem foldl_count_shift {α : Type} (g : FS → α → FS × Nat) (l : List α) (fs : FS) (c : Nat) :
    l.foldl (fun st a => ((g st.1 a).1, st.2 + (g st.1 a).2)) (fs, c)
      = ((l.foldl (fun st a => ((g st.1 a).1, st.2 + (g st.1 a).2)) (fs, 0)).1,
         c + (l.foldl (fun st a => ((g st.1 a).1, st.2 + (g st.1 a).2)) (fs, 0)).2) := by
  induction l generalizing fs c with
  | nil => simp
  | cons a rest ih =>
    simp only [List.foldl_cons]
    rw [ih _ (c + (g fs a).2), ih _ (0 + (g fs a).2)]
    simp [Nat.add_assoc]

/-- The count that a run of patterns starts with is carried along. -/
theorem run_filters_count (rx : String → Option (String → Bool)) (working_dir : String)
    (d : TaskDescriptor) (fs : FS) (c : Nat) :
    run_filters rx working_dir d (fs, c)
      = ((run_filters rx working_dir d (fs, 0)).1,
         c + (run_filters rx working_dir d (fs, 0)).2) :=
  foldl_count_shift (fun fs filter => run_grab_task rx fs working_dir d.start_path filter d.task_id)
    d.files fs c

theorem foldl_run_filters_count (rx : String → Option (String → Bool)) (working_dir : String)
    (j : List TaskDescriptor) (fs : FS) (c : Nat) :
    j.foldl (fun st d => run_filters rx working_dir d st) (fs, c)
      = ((parse_tasks rx fs working_dir j).1, c + (parse_tasks rx fs working_dir j).2) := by
  rw [parse_tasks_eq]
  have hfun : (fun (st : FS × Nat) d => run_filters rx working_dir d st)
      = (fun st d => ((run_filters rx working_dir d (st.1, 0)).1,
          st.2 + (run_filters rx working_dir d (st.1, 0)).2)) := by
    funext st d
    obtain ⟨a, b⟩ := st
    exact run_filters_count rx working_dir d a b
  rw [hfun]
  exact foldl_count_shift (fun fs d => run_filters rx working_dir d (fs, 0)) j fs c

/-- Running a list of descriptors is running its first part and then the rest
from the filesystem that the first part left; the counts add up. -/
theorem parse_tasks_append (rx : String → Option (String → Bool)) (fs : FS)
    (working_dir : String) (j1 j2 : List TaskDescriptor) :
    parse_tasks rx fs working_dir (j1 ++ j2)
      = ((parse_tasks rx (parse_tasks rx fs working_dir j1).1 working_dir j2).1,
         (parse_tasks rx fs working_dir j1).2
          + (parse_tasks rx (parse_tasks rx fs working_dir j1).1 working_dir j2).2) := by
  rw [parse_tasks_eq, List.foldl_append, ← parse_tasks_eq]
  exact foldl_run_filters_count rx working_dir j2 _ _

theorem parse_tasks_cons (rx : String → Option (String → Bool)) (fs : FS)
    (working_dir : String) (d : TaskDescriptor) (j : List TaskDescriptor) :
    parse_tasks rx fs working_dir (d :: j)
      = ((parse_tasks rx (run_filters rx working_dir d (fs, 0)).1 working_dir j).1,
         (run_filters rx working_dir d (fs, 0)).2
          + (parse_tasks rx (run_filters rx working_dir d (fs, 0)).1 working_dir j).2) := by
  rw [parse_tasks_eq, List.foldl_cons]
  exact foldl_run_filters_count rx working_dir j _ _

theorem foldl_bad_filters (rx : String → Option (String → Bool)) (working_dir : String)
    (start_path task_id : String) (l : List String) (fs : FS)
    (h : is_directory (try_create_directory fs (working_dir ++ "/" ++ task_id)) start_path
          = false) :
    l.foldl (fun (st : FS × Nat) filter =>
        ((run_grab_task rx st.1 working_dir start_path filter task_id).1,
          st.2 + (run_grab_task rx st.1 working_dir start_path filter task_id).2)) (fs, 0)
      = (if l = [] then fs else try_create_directory fs (working_dir ++ "/" ++ task_id), 0) := by
  induction l generalizing fs with
  | nil => rfl
  | cons f rest ih =>
    simp only [List.foldl_cons, run_grab_task_bad rx fs working_dir start_path f task_id h,
      Nat.add_zero]
    rw [ih _ (by rw [try_create_directory_twice]; exact h), try_create_directory_twice]
    simp

/-- A descriptor whose start path is not a directory when it runs adds 0 and
leaves behind at most its staging directory. -/
theorem run_filters_bad (rx : String → Option (String → Bool)) (working_dir : String)
    (d : TaskDescriptor) (fs : FS)
    (h : is_directory (try_create_directory fs (working_dir ++ "/" ++ d.task_id)) d.start_path
          = false) :
    run_filters rx working_dir d (fs, 0)
      = (if d.files = [] then fs
          else try_create_directory fs (working_dir ++ "/" ++ d.task_id), 0) :=
  foldl_bad_filters rx working_dir d.start_path d.task_id d.files fs h

/-- C6, as amended. No descriptor makes `parse_tasks` fail: the descriptors
before it and after it are run, and the counts add up. A descriptor whose
start path is missing or not a directory when it runs adds 0 to the total and
changes the filesystem at most by creating its staging directory; the
descriptors after it run from that filesystem. When this leaves the
filesystem as it was, the result is that of the remaining descriptors alone. -/
theorem parse_tasks_bad_descriptor (rx : String → Option (String → Bool)) (fs : FS)
    (working_dir : String) (pre post : List TaskDescriptor) (bad : TaskDescriptor)
    (hbad : is_directory
        (try_create_directory (parse_tasks rx fs working_dir pre).1
          (working_dir ++ "/" ++ bad.task_id)) bad.start_path = false) :
    (∀ d : TaskDescriptor, parse_tasks rx fs working_dir (pre ++ d :: post)
        = ((parse_tasks rx (run_filters rx working_dir d
              ((parse_tasks rx fs working_dir pre).1, 0)).1 working_dir post).1,
           (parse_tasks rx fs working_dir pre).2
            + ((run_filters rx working_dir d ((parse_tasks rx fs working_dir pre).1, 0)).2
              + (parse_tasks rx (run_filters rx working_dir d
                  ((parse_tasks rx fs working_dir pre).1, 0)).1 working_dir post).2)))
    ∧ run_filters rx working_dir bad ((parse_tasks rx fs working_dir pre).1, 0)
        = (if bad.files = [] then (parse_tasks rx fs working_dir pre).1
            else try_create_directory (parse_tasks rx fs working_dir pre).1
              (working_dir ++ "/" ++ bad.task_id), 0)
    ∧ ((run_filters rx working_dir bad ((parse_tasks rx fs working_dir pre).1, 0)).1
          = (parse_tasks rx fs working_dir pre).1 →
        parse_tasks rx fs working_dir (pre ++ bad :: post)
          = parse_tasks rx fs working_dir (pre ++ post)) := by
  have hcomp : ∀ d : TaskDescriptor, parse_tasks rx fs working_dir (pre ++ d :: post)
        = ((parse_tasks rx (run_filters rx working_dir d
              ((parse_tasks rx fs working_dir pre).1, 0)).1 working_dir post).1,
           (parse_tasks rx fs working_dir pre).2
            + ((run_filters rx working_dir d ((parse_tasks rx fs working_dir pre).1, 0)).2
              + (parse_tasks rx (run_filters rx working_dir d
                  ((parse_tasks rx fs working_dir pre).1, 0)).1 working_dir post).2)) := by
    intro d
    rw [parse_tasks_append, parse_tasks_cons]
  have hrun := run_filters_bad rx working_dir bad (parse_tasks rx fs working_dir pre).1 hbad
  refine ⟨hcomp, hrun, ?_⟩
  intro hsame
  rw [hcomp bad, parse_tasks_append, hsame]
  have h0 : (run_filters rx working_dir bad ((parse_tasks rx fs working_dir pre).1, 0)).2 = 0 := by
    rw [hrun]
  rw [h0, Nat.zero_add]

/-- An instance of C6: in the end-to-end scenario a descriptor with the
missing start path `/missing` adds 0. -/
theorem parse_tasks_bad_descriptor_witness :
    is_directory
        (try_create_directory (parse_tasks ecma_regex (scenarioFS [1] [2] [3]) "/ws" []).1
          ("/ws" ++ "/" ++ missingT0.task_id)) missingT0.start_path = false
      ∧ (run_filters ecma_regex "/ws" missingT0
          ((parse_tasks ecma_regex (scenarioFS [1] [2] [3]) "/ws" []).1, 0)).2 = 0 :=
  ⟨rfl, congrArg Prod.snd
    (parse_tasks_bad_descriptor ecma_regex (scenarioFS [1] [2] [3]) "/ws" [] [scenarioT1]
      missingT0 rfl).2.1⟩

/-- C6 as stated fails in its last part. The start path `/missing` of the
descriptor `T1` does not exist, yet with it `parse_tasks` returns 6 and
without it 3: the staging directory `/ws/T1` that the descriptor leaves
behind lets `T1/x` stage its three files, which `T2` then finds below
`/ws/T1`. -/
theorem parse_tasks_bad_descriptor_changes_count :
    is_directory (scenarioFS [1] [2] [3]) "/missing" = false
      ∧ fs_exists (scenarioFS [1] [2] [3]) "/missing" = Except.ok false
      ∧ (parse_tasks ecma_regex (scenarioFS [1] [2] [3]) "/ws"
          [missingT1, nestedT1x, rescanT2]).2 = 6
      ∧ (parse_tasks ecma_regex (scenarioFS [1] [2] [3]) "/ws" [nestedT1x, rescanT2]).2 = 3 :=
  ⟨rfl, rfl, rfl, rfl⟩

theorem fileCountEntries_append (es l : List (String × Node)) :
    fileCountEntries (es ++ l) = fileCountEntries es + fileCountEntries l := by
  induction es with
  | nil => simp [fileCountEntries]
  | cons e rest ih =>
    obtain ⟨n, x⟩ := e
    simp [fileCountEntries, ih, Nat.add_assoc]

theorem fileCountEntries_modify_le (c : String) (f : Node → Node) (k : Nat)
    (h : ∀ n, (f n).fileCount ≤ n.fileCount + k) (es : List (String × Node)) :
    fileCountEntries (modifyEntry c f es) ≤ fileCountEntries es + k := by
  induction es with
  | nil => simp [modifyEntry, fileCountEntries]
  | cons e rest ih =>
    obtain ⟨n, x⟩ := e
    simp only [modifyEntry]
    split_ifs with hn
    · have := h x
      simp only [fileCountEntries]
      omega
    · simp only [fileCountEntries]
      omega

/-- An insertion adds at most the files of the new node. -/
theorem Node.fileCount_insert_le (path : List String) (name : String) (x root : Node) :
    (Node.insert path name x root).fileCount ≤ root.fileCount + x.fileCount := by
  induction path generalizing root with
  | nil =>
    cases root with
    | dir es => simp [Node.insert, Node.fileCount, fileCountEntries_append, fileCountEntries]
    | file b => simp [Node.insert]
    | other => simp [Node.insert]
  | cons c cs ih =>
    cases root with
    | dir es =>
      simp only [Node.insert, Node.fileCount]
      exact fileCountEntries_modify_le c _ _ (fun n => ih n) es
    | file b => simp [Node.insert]
    | other => simp [Node.insert]

theorem fileCount_createAt_le {fs fs1 : FS} {p : String} {pre : List String} {name : String}
    {x : Node} (h : createAt fs p pre name x = some fs1) :
    fs1.root.fileCount ≤ fs.root.fileCount + x.fileCount := by
  obtain ⟨-, -, parent, es, -, -, -, rfl⟩ := createAt_spec h
  exact Node.fileCount_insert_le parent name x fs.root

/-- Creating the staging directory adds no regular file. -/
theorem fileCount_try_create_directory_le (fs : FS) (p : String) :
    (try_create_directory fs p).root.fileCount ≤ fs.root.fileCount := by
  unfold try_create_directory create_directory
  cases hm : mkdir fs p with
  | none =>
    simp only
    split_ifs <;> exact Nat.le_refl _
  | some fs1 =>
    obtain ⟨name, -, hc⟩ := mkdir_spec hm
    simpa [Node.fileCount, fileCountEntries] using fileCount_createAt_le hc

/-- One call of `copy_file_to_folder` adds at most one regular file. -/
theorem fileCount_copy_file_to_folder_le (fs : FS) (source_path destination_folder : String) :
    (copy_file_to_folder fs source_path destination_folder).root.fileCount
      ≤ fs.root.fileCount + 1 := by
  rcases copy_file_to_folder_cases fs source_path destination_folder with h1 | ⟨-, hc⟩
  · rw [h1]
    omega
  · obtain ⟨bytes, name, -, -, -, hcr⟩ := copy_file_spec hc
    simpa [Node.fileCount] using fileCount_createAt_le hcr

theorem foldl_copy_count (task_dir : String) (files : List String) (fs : FS) (c : Nat) :
    (files.foldl (fun (st : FS × Nat) file =>
        (copy_file_to_folder st.1 file task_dir, st.2 + 1)) (fs, c)).2 = c + files.length
    ∧ (files.foldl (fun (st : FS × Nat) file =>
        (copy_file_to_folder st.1 file task_dir, st.2 + 1)) (fs, c)).1.root.fileCount
        ≤ fs.root.fileCount + files.length := by
  induction files generalizing fs c with
  | nil => simp
  | cons f rest ih =>
    simp only [List.foldl_cons, List.length_cons]
    obtain ⟨h1, h2⟩ := ih (copy_file_to_folder fs f task_dir) (c + 1)
    have h3 := fileCount_copy_file_to_folder_le fs f task_dir
    constructor
    · omega
    · omega

/-- `found_counter` is the number of paths that `list_files` returned, whether
or not they were copied; the regular files added are at most as many. -/
theorem run_grab_task_count (rx : String → Option (String → Bool)) (fs : FS)
    (working_dir directory filter task_id : String) :
    (run_grab_task rx fs working_dir directory filter task_id).2
        = found_one rx fs working_dir directory filter task_id
    ∧ (run_grab_task rx fs working_dir directory filter task_id).1.root.fileCount
        ≤ fs.root.fileCount + (run_grab_task rx fs working_dir directory filter task_id).2 := by
  rw [run_grab_task_eq]
  unfold found_one
  have hmk := fileCount_try_create_directory_le fs (working_dir ++ "/" ++ task_id)
  cases list_files rx (try_create_directory fs (working_dir ++ "/" ++ task_id))
      working_dir directory true filter true with
  | error e => exact ⟨rfl, by simpa using hmk⟩
  | ok files =>
    obtain ⟨h1, h2⟩ := foldl_copy_count (working_dir ++ "/" ++ task_id) files
      (try_create_directory fs (working_dir ++ "/" ++ task_id)) 0
    simp only at h1 h2 ⊢
    constructor
    · omega
    · omega

theorem foldl_filters_count (rx : String → Option (String → Bool)) (working_dir : String)
    (start_path task_id : String) (l : List String) (fs : FS) :
    (l.foldl (fun (st : FS × Nat) filter =>
        ((run_grab_task rx st.1 working_dir start_path filter task_id).1,
          st.2 + (run_grab_task rx st.1 working_dir start_path filter task_id).2)) (fs, 0)).2
      = found_filters rx working_dir start_path task_id fs l
    ∧ (l.foldl (fun (st : FS × Nat) filter =>
        ((run_grab_task rx st.1 working_dir start_path filter task_id).1,
          st.2 + (run_grab_task rx st.1 working_dir start_path filter task_id).2)) (fs, 0)).1.root.fileCount
      ≤ fs.root.fileCount + found_filters rx working_dir start_path task_id fs l := by
  induction l generalizing fs with
  | nil => simp [found_filters]
  | cons f rest ih =>
    simp only [List.foldl_cons, found_filters]
    rw [foldl_count_shift (fun fs filter => run_grab_task rx fs working_dir start_path filter task_id)]
    obtain ⟨h1, h2⟩ := ih (run_grab_task rx fs working_dir start_path f task_id).1
    obtain ⟨h3, h4⟩ := run_grab_task_count rx fs working_dir start_path f task_id
    simp only at h1 h2 ⊢
    constructor
    · omega
    · omega

theorem run_filters_found (rx : String → Option (String → Bool)) (working_dir : String)
    (d : TaskDescriptor) (fs : FS) :
    (run_filters rx working_dir d (fs, 0)).2
        = found_filters rx working_dir d.start_path d.task_id fs d.files
    ∧ (run_filters rx working_dir d (fs, 0)).1.root.fileCount
        ≤ fs.root.fileCount + found_filters rx working_dir d.start_path d.task_id fs d.files :=
  foldl_filters_count rx working_dir d.start_path d.task_id d.files fs

/-- C3, as amended. The count that `parse_tasks` returns is the number of
paths that `list_files` returned, summed over every descriptor and every
pattern, each scan made in the filesystem of that moment (a scan that throws
counts 0). A path is counted whether or not its copy was made; the number of
regular files added to the filesystem is at most the count. -/
theorem parse_tasks_counts_found (rx : String → Option (String → Bool)) (fs : FS)
    (working_dir : String) (j : List TaskDescriptor) :
    (parse_tasks rx fs working_dir j).2 = found_total rx working_dir fs j
    ∧ (parse_tasks rx fs working_dir j).1.root.fileCount
        ≤ fs.root.fileCount + (parse_tasks rx fs working_dir j).2 := by
  induction j generalizing fs with
  | nil => exact ⟨rfl, Nat.le_refl _⟩
  | cons d rest ih =>
    rw [parse_tasks_cons]
    obtain ⟨h1, h2⟩ := ih (run_filters rx working_dir d (fs, 0)).1
    obtain ⟨h3, h4⟩ := run_filters_found rx working_dir d fs
    simp only [found_total]
    constructor
    · omega
    · omega

/-- C3 as stated fails. In the end-to-end scenario `/src/a.txt` matches both
patterns of the descriptor: `parse_tasks` returns 3 although only 2 files
were copied (the second copy of `/src/a.txt` was skipped). With a staging
directory that cannot be created `parse_tasks` returns 2 although nothing
was copied. -/
theorem parse_tasks_counts_uncopied :
    ((parse_tasks ecma_regex (scenarioFS [1] [2] [3]) "/ws" [twoPatternsT1]).2 = 3
      ∧ (parse_tasks ecma_regex (scenarioFS [1] [2] [3]) "/ws" [twoPatternsT1]).1.root.fileCount
          = (scenarioFS [1] [2] [3]).root.fileCount + 2)
    ∧ ((parse_tasks ecma_regex (scenarioFS [1] [2] [3]) "/ws" [noStagingT9]).2 = 2
      ∧ (parse_tasks ecma_regex (scenarioFS [1] [2] [3]) "/ws" [noStagingT9]).1.root.fileCount
          = (scenarioFS [1] [2] [3]).root.fileCount) :=
  ⟨⟨rfl, rfl⟩, rfl, rfl⟩

/-- C5, as amended. For every directory `w`, every pattern that `std::regex`
accepts and every value of the two flags, `list_files(w, w, ...)` returns the
empty sequence, whatever `w` contains. -/
theorem list_files_workspace_itself (rx : String → Option (String → Bool)) (fs : FS)
    (w filter : String) (recursive regularFilesOnly : Bool)
    (hdir : is_directory fs w = true)
    (hrx : (rx filter).isSome = true) :
    list_files rx fs w w recursive filter regularFilesOnly = Except.ok [] := by
  unfold is_directory at hdir
  unfold list_files
  cases hs : stat fs w with
  | none => simp [hs] at hdir
  | some n =>
    rw [if_neg (by simp [status_throws_of_stat hs])]
    cases n with
    | dir es =>
      cases hr : rx filter with
      | none => simp [hr] at hrx
      | some m => simp
    | file b => simp [hs] at hdir
    | other => simp [hs] at hdir

/-- An instance of C5: the staging directory of the end-to-end scenario after
the run, scanned with both flags set. -/
theorem list_files_workspace_itself_witness :
    list_files ecma_regex (scenarioAfter [1] [2] [3]) "/ws" "/ws" true ".*" true
      = Except.ok [] :=
  list_files_workspace_itself ecma_regex (scenarioAfter [1] [2] [3]) "/ws" ".*" true true
    rfl rfl

/-- C5 as stated fails for a pattern that `std::regex` rejects, such as the
unclosed bracket `[`: the regular expression is constructed before the
comparison with the workspace, so `list_files(w, w, ...)` throws instead of
returning the empty sequence. -/
theorem list_files_workspace_bad_pattern :
    is_directory (scenarioAfter [1] [2] [3]) "/ws" = true
      ∧ list_files ecma_regex (scenarioAfter [1] [2] [3]) "/ws" "/ws" true "[" true
          = Except.error "regex_error" :=
  ⟨rfl, rfl⟩

end FileGrabber
